import Mathlib

deriving instance DecidableEq for Except

/-
Verification of the event tracking and duration aggregation core of
pywr (src/pywr/recorders/events.py).

The embedding below translates the Python source into Lean definitions:

* `Timestep` and `ScenarioIndex` model the timestep descriptor and the
  scenario combination objects the driver supplies.  A timestep carries the
  monotonic integer `index` and a calendar `datetime`, modelled as whole
  seconds so that the `timedelta.days` computation is exact integer
  arithmetic (one day = 86400 seconds).
* `Event` mirrors the `Event` container: `start`, `scenario_index`, and an
  `end` that is `none` until assigned (Python initialises it to `None`).
* `Threshold` models the three accepted shapes of the threshold object.
  For `Recorder` and `Parameter` sources the Python code converts the
  current values with `np.array(..., dtype=np.int)`, which truncates each
  float toward zero; `npIntCast` reproduces that C-style cast on rationals.
  An `IndexParameter` already yields integers.  Any other object raises a
  `TypeError`.
* `EventRecorder.after`, `EventRecorder.finish` and
  `EventRecorder.to_dataframe` are the per-timestep state machine, the
  end-of-run forced closure and the tabular export.  Python list/array
  indexing is modelled fallibly: an out-of-range subscript is an
  `IndexError`, reading `.datetime` on an unset `end` is an
  `AttributeError`.
* `EventDurationRecorder.finish` reproduces the dataframe pipeline:
  duration = whole days of `end - start` (`timedelta.days`, floor
  division), group rows by `scenario_id` (pandas iterates the groups with
  sorted, de-duplicated keys), apply the configured aggregation function to
  each group and write the scalar into the dense output array.  When the
  aggregation function is `None` (neither `recorder_agg_func` nor
  `agg_func` was supplied) pandas raises a `TypeError`, which is modelled
  by `applyAgg`.
-/

namespace PywrEvents

/-- Timestep descriptor: monotonic sequence index plus calendar timestamp
(whole seconds). -/
structure Timestep where
  index : Nat
  datetime : Int
deriving DecidableEq

/-- Scenario combination identifier with its dense `global_id`. -/
structure ScenarioIndex where
  global_id : Nat
deriving DecidableEq

/-- Container for event information (`Event` in the source).  `end` is
`none` until the closing timestep is assigned. -/
structure Event where
  start : Timestep
  scenario_index : ScenarioIndex
  «end» : Option Timestep
deriving DecidableEq

/-- The `duration` property: whole days of `end.datetime - start.datetime`
(`timedelta.days` is floor division by one day); `none` when `end` is not
yet assigned (Python would raise there). -/
def Event.duration (e : Event) : Option Int :=
  e.«end».map fun t => (t.datetime - e.start.datetime).fdiv 86400

/-- Errors raised by the Python code (and by the libraries it calls). -/
inductive PywrError where
  | valueError (msg : String)
  | typeError (msg : String)
  | indexError
  | attributeError
deriving DecidableEq

/-- The C-style cast performed by `np.array(values, dtype=np.int)` on one
value: truncation toward zero. -/
def npIntCast (q : ℚ) : Int := q.num.tdiv q.den

/-- The three recognised shapes of the threshold object, plus the rejected
case.  `recorder` and `parameter` carry per-scenario continuous values,
`indexParameter` carries per-scenario integer indices. -/
inductive Threshold where
  | recorder (values : List ℚ)
  | indexParameter (indices : List Int)
  | parameter (values : List ℚ)
  | other
deriving DecidableEq

/-- Normalisation of the threshold into the `all_triggered` integer vector
(`EventRecorder.after`, lines 68-75): recorder and parameter values go
through the `np.int` cast, index parameters are used as-is, anything else
is a `TypeError`. -/
def Threshold.all_triggered : Threshold → Except PywrError (List Int)
  | .recorder values => .ok (values.map npIntCast)
  | .indexParameter indices => .ok indices
  | .parameter values => .ok (values.map npIntCast)
  | .other => .error (.typeError "Threshold must be either a Recorder or Parameter instance.")

/-- State of an `EventRecorder`: the threshold object, the validated
minimum event length, the flat finalized event list and the per-scenario
open-event slots (`_current_events`). -/
structure EventRecorder where
  threshold : Threshold
  minimum_event_length : Int
  events : List Event
  current_events : List (Option Event)
deriving DecidableEq

/-- `EventRecorder.__init__`: rejects `minimum_event_length < 1` with a
`ValueError` before any run starts.  The source initialises `events` and
`_current_events` to `None`; they are modelled as empty lists here since
every operation below is only reachable after `reset`. -/
def EventRecorder.init (threshold : Threshold) (minimum_event_length : Int) :
    Except PywrError EventRecorder :=
  if minimum_event_length < 1 then
    .error (.valueError "Keyword \x22minimum_event_length\x22 must be >= 1")
  else
    .ok { threshold := threshold, minimum_event_length := minimum_event_length,
          events := [], current_events := [] }

/-- `EventRecorder.reset`: empty event list, one empty open slot per
scenario combination. -/
def EventRecorder.reset (r : EventRecorder) (n : Nat) : EventRecorder :=
  { r with events := [], current_events := List.replicate n none }

/-- The scenario combinations of a model with `n` combinations: dense
`global_id` values `0, ..., n-1` in iteration order. -/
def combinations (n : Nat) : List ScenarioIndex :=
  (List.range n).map ScenarioIndex.mk

/-- Body of the per-scenario loop in `EventRecorder.after` (lines 77-112).
Given the triggered value and the current open slot it returns the new
slot content and the event to append to `self.events` (if any).  On a
true-to-false transition the open event gets `end = ts` and is appended
exactly when `ts.index - start.index >= minimum_event_length`; the slot is
cleared either way. -/
def afterScenario (minimum_event_length : Int) (ts : Timestep) (triggered : Int)
    (current_event : Option Event) (si : ScenarioIndex) :
    Option Event × Option Event :=
  match current_event with
  | some ev =>
      if triggered ≠ 0 then
        (some ev, none)
      else
        let ev2 := { ev with «end» := some ts }
        let current_length : Int := (ts.index : Int) - (ev2.start.index : Int)
        (none, if minimum_event_length ≤ current_length then some ev2 else none)
  | none =>
      if triggered ≠ 0 then
        (some { start := ts, scenario_index := si, «end» := none }, none)
      else
        (none, none)

/-- The scenario loop of `EventRecorder.after`: for each combination, look
up `all_triggered[si.global_id]` and `_current_events[si.global_id]`
(an out-of-range subscript is an `IndexError`), run the loop body, store
the new slot and append any closed event. -/
def afterLoop (minimum_event_length : Int) (ts : Timestep) (all_triggered : List Int) :
    List ScenarioIndex → List (Option Event) → List Event →
    Except PywrError (List (Option Event) × List Event)
  | [], current, evs => .ok (current, evs)
  | si :: rest, current, evs =>
      match all_triggered[si.global_id]?, current[si.global_id]? with
      | some triggered, some slot =>
          let p := afterScenario minimum_event_length ts triggered slot si
          afterLoop minimum_event_length ts all_triggered rest
            (current.set si.global_id p.1) (evs ++ p.2.toList)
      | _, _ => .error .indexError

/-- `EventRecorder.after` for a model with `n` scenario combinations at the
current timestep `ts`: normalise the threshold, then run the scenario
loop. -/
def EventRecorder.after (r : EventRecorder) (n : Nat) (ts : Timestep) :
    Except PywrError EventRecorder :=
  match r.threshold.all_triggered with
  | .error e => .error e
  | .ok all_triggered =>
      match afterLoop r.minimum_event_length ts all_triggered (combinations n)
          r.current_events r.events with
      | .error e => .error e
      | .ok (current, evs) => .ok { r with current_events := current, events := evs }

/-- Force-closing an open event at `finish` time: assign `end := ts`. -/
def closeEvent (ts : Timestep) (ev : Event) : Event := { ev with «end» := some ts }

/-- The scenario loop of `EventRecorder.finish` (lines 114-124): every open
event gets `end = ts` and is appended unconditionally (no minimum-length
check), and its slot is cleared. -/
def finishLoop (ts : Timestep) :
    List ScenarioIndex → List (Option Event) → List Event →
    Except PywrError (List (Option Event) × List Event)
  | [], current, evs => .ok (current, evs)
  | si :: rest, current, evs =>
      match current[si.global_id]? with
      | none => .error .indexError
      | some slot =>
          match slot with
          | some ev =>
              finishLoop ts rest (current.set si.global_id none)
                (evs ++ [closeEvent ts ev])
          | none => finishLoop ts rest current evs

/-- `EventRecorder.finish` for a model with `n` scenario combinations whose
current (final) timestep is `ts`. -/
def EventRecorder.finish (r : EventRecorder) (n : Nat) (ts : Timestep) :
    Except PywrError EventRecorder :=
  match finishLoop ts (combinations n) r.current_events r.events with
  | .error e => .error e
  | .ok (current, evs) => .ok { r with current_events := current, events := evs }

/-- The dataframe produced by `to_dataframe`: a column-name list and one
row per event carrying `(scenario_id, start, end)`. -/
structure EventFrame where
  columns : List String
  rows : List (Nat × Int × Int)
deriving DecidableEq

/-- One row of the export: `(global_id, start.datetime, end.datetime)`.
Reading `.datetime` of an unset `end` is an `AttributeError`. -/
def eventRow (evt : Event) : Except PywrError (Nat × Int × Int) :=
  match evt.«end» with
  | some e => .ok (evt.scenario_index.global_id, evt.start.datetime, e.datetime)
  | none => .error .attributeError

/-- `EventRecorder.to_dataframe` on an event list: an empty dataframe with
columns `scenario_id, start, end` when there are no events, otherwise one
row per event in list order. -/
def to_dataframeAux (events : List Event) : Except PywrError EventFrame :=
  if events.length = 0 then
    .ok { columns := ["scenario_id", "start", "end"], rows := [] }
  else
    match events.mapM eventRow with
    | .error e => .error e
    | .ok rows => .ok { columns := ["scenario_id", "start", "end"], rows := rows }

/-- `EventRecorder.to_dataframe`. -/
def EventRecorder.to_dataframe (r : EventRecorder) : Except PywrError EventFrame :=
  to_dataframeAux r.events

/-- An aggregation function as accepted by `DataFrame.groupby(...).agg`:
it maps one group of integer durations to a scalar. -/
def AggFunc := List Int → ℚ

/-- A `sum` aggregation function (integer sum of the group). -/
def sumAgg : AggFunc := fun ds => ((ds.foldl (· + ·) 0 : Int) : ℚ)

/-- State of an `EventDurationRecorder`: the aggregation function selected
at construction. -/
structure EventDurationRecorder where
  recorder_agg_func : Option AggFunc

/-- `EventDurationRecorder.__init__`:
`agg_func = kwargs.pop('recorder_agg_func', kwargs.get('agg_func'))` —
the recorder-specific function if supplied, otherwise whatever `agg_func`
was supplied (absent kwargs are `none`). -/
def EventDurationRecorder.init (recorder_agg_func agg_func : Option AggFunc) :
    EventDurationRecorder :=
  { recorder_agg_func :=
      match recorder_agg_func with
      | some f => some f
      | none => agg_func }

/-- `timedelta.days` of a difference given in whole seconds: floor division
by one day. -/
def tdDays (seconds : Int) : Int := seconds.fdiv 86400

/-- The `duration` column: from each `(scenario_id, start, end)` row keep
`(scenario_id, (end - start).dt.days)`. -/
def durationRows (rows : List (Nat × Int × Int)) : List (Nat × Int) :=
  rows.map fun row => (row.1, tdDays (row.2.2 - row.2.1))

/-- Insert a key into a sorted key list (ascending). -/
def insertSorted (k : Nat) : List Nat → List Nat
  | [] => [k]
  | a :: rest => if k ≤ a then k :: a :: rest else a :: insertSorted k rest

/-- Sort a key list ascending (insertion sort). -/
def sortKeys : List Nat → List Nat
  | [] => []
  | a :: rest => insertSorted a (sortKeys rest)

/-- Remove duplicate keys (keeping one occurrence of each). -/
def uniqueKeys : List Nat → List Nat
  | [] => []
  | a :: rest => if a ∈ rest then uniqueKeys rest else a :: uniqueKeys rest

/-- The group keys of `df.groupby('scenario_id')`: the distinct
`scenario_id` values in ascending order. -/
def groupKeys (durs : List (Nat × Int)) : List Nat :=
  sortKeys (uniqueKeys (durs.map Prod.fst))

/-- The `duration` values of one scenario group, in row order. -/
def groupDurations (durs : List (Nat × Int)) (k : Nat) : List Int :=
  (durs.filter fun d => d.1 = k).map Prod.snd

/-- Apply the configured aggregation function to one group.  pandas raises
a `TypeError` when the function is `None` (`'NoneType' object is not
callable`). -/
def applyAgg (agg : Option AggFunc) (group : List Int) : Except PywrError ℚ :=
  match agg with
  | some f => .ok (f group)
  | none => .error (.typeError "NoneType object is not callable")

/-- The write-back loop over the grouped result
(`for index, row in grouped.iterrows(): self._values[index] = ...`):
writing at an index outside the dense value array is an `IndexError`. -/
def writeGroups (agg : Option AggFunc) (durs : List (Nat × Int)) :
    List Nat → List ℚ → Except PywrError (List ℚ)
  | [], values => .ok values
  | k :: rest, values =>
      match applyAgg agg (groupDurations durs k) with
      | .error e => .error e
      | .ok v =>
          if k < values.length then
            writeGroups agg durs rest (values.set k v)
          else .error .indexError

/-- The open-event slots produced by one pass of the scenario loop of
`EventRecorder.after`, starting at `global_id = a`: slot `a + i` becomes
the first component of the loop body applied to the old slot `a + i`. -/
def afterSlots (minimum_event_length : Int) (ts : Timestep) (all_triggered : List Int) :
    Nat → List (Option Event) → List (Option Event)
  | _, [] => []
  | a, slot :: rest =>
      (afterScenario minimum_event_length ts (all_triggered.getD a 0) slot ⟨a⟩).1 ::
        afterSlots minimum_event_length ts all_triggered (a + 1) rest

/-- The events appended by one pass of the scenario loop of
`EventRecorder.after`, starting at `global_id = a`, in scenario order. -/
def afterNewEvents (minimum_event_length : Int) (ts : Timestep) (all_triggered : List Int) :
    Nat → List (Option Event) → List Event
  | _, [] => []
  | a, slot :: rest =>
      (afterScenario minimum_event_length ts (all_triggered.getD a 0) slot ⟨a⟩).2.toList ++
        afterNewEvents minimum_event_length ts all_triggered (a + 1) rest

/-- `EventDurationRecorder.finish` (lines 180-199) for a model with `n`
scenario combinations, applied to the finalized events of the underlying
`EventRecorder`: export the events, zero the dense value array, return it
unchanged when there are no rows, otherwise compute the duration column,
group by `scenario_id`, aggregate each group and write the scalars back. -/
def EventDurationRecorder.finish (edr : EventDurationRecorder) (n : Nat)
    (events : List Event) : Except PywrError (List ℚ) :=
  match to_dataframeAux events with
  | .error e => .error e
  | .ok df =>
      let values := List.replicate n (0 : ℚ)
      if df.rows.length = 0 then .ok values
      else
        let durs := durationRows df.rows
        writeGroups edr.recorder_agg_func durs (groupKeys durs) values

/-! ### Properties of the scenario loop of `after` -/

lemma afterScenario_fst_isSome (minimum_event_length : Int) (ts : Timestep)
    (triggered : Int) (slot : Option Event) (si : ScenarioIndex) :
    ((afterScenario minimum_event_length ts triggered slot si).1).isSome ↔ triggered ≠ 0 := by
  cases slot <;> by_cases h : triggered = 0 <;> simp [afterScenario, h]

lemma afterScenario_snd_eq (minimum_event_length : Int) (ts : Timestep)
    (triggered : Int) (slot : Option Event) (si : ScenarioIndex) (ev2 : Event)
    (h : (afterScenario minimum_event_length ts triggered slot si).2 = some ev2) :
    ev2.«end» = some ts ∧
      minimum_event_length ≤ (ts.index : Int) - (ev2.start.index : Int) := by
  cases slot with
  | none =>
      by_cases ht : triggered = 0 <;> simp [afterScenario, ht] at h
  | some ev =>
      by_cases ht : triggered = 0
      · simp only [afterScenario, ht] at h
        simp only [if_neg (by simp : ¬ (0 : Int) ≠ 0)] at h
        split at h
        · injection h with h2
          subst h2
          exact ⟨rfl, by simpa using ‹_›⟩
        · cases h
      · simp [afterScenario, ht] at h

lemma afterLoop_eq_ok (minimum_event_length : Int) (ts : Timestep)
    (all_triggered : List Int) (current : List (Option Event)) :
    ∀ (pre : List (Option Event)) (evs : List Event),
      pre.length + current.length ≤ all_triggered.length →
      afterLoop minimum_event_length ts all_triggered
          ((List.range' pre.length current.length).map ScenarioIndex.mk)
          (pre ++ current) evs =
        .ok (pre ++ afterSlots minimum_event_length ts all_triggered pre.length current,
             evs ++ afterNewEvents minimum_event_length ts all_triggered pre.length current) := by
  induction current with
  | nil =>
      intro pre evs _
      simp [afterLoop, afterSlots, afterNewEvents]
  | cons slot rest ih =>
      intro pre evs h
      have hlt : pre.length < all_triggered.length := by
        simp only [List.length_cons] at h
        omega
      have htrig : all_triggered[pre.length]? = some (all_triggered.getD pre.length 0) := by
        rw [List.getD_eq_getElem?_getD, List.getElem?_eq_getElem hlt]
        rfl
      have hcur : (pre ++ slot :: rest)[pre.length]? = some slot := by
        rw [List.getElem?_append_right (le_refl pre.length)]
        simp
      have hset :
          (pre ++ slot :: rest).set pre.length
              (afterScenario minimum_event_length ts (all_triggered.getD pre.length 0) slot
                ⟨pre.length⟩).1 =
            pre ++
              (afterScenario minimum_event_length ts (all_triggered.getD pre.length 0) slot
                ⟨pre.length⟩).1 :: rest := by
        rw [List.set_append]
        simp
      simp only [List.length_cons]
      rw [List.range'_succ, List.map_cons]
      rw [show (afterLoop minimum_event_length ts all_triggered
            (⟨pre.length⟩ :: (List.range' (pre.length + 1) rest.length).map ScenarioIndex.mk)
            (pre ++ slot :: rest) evs) =
          (match all_triggered[pre.length]?, (pre ++ slot :: rest)[pre.length]? with
            | some triggered, some slot2 =>
                afterLoop minimum_event_length ts all_triggered
                  ((List.range' (pre.length + 1) rest.length).map ScenarioIndex.mk)
                  ((pre ++ slot :: rest).set pre.length
                    (afterScenario minimum_event_length ts triggered slot2 ⟨pre.length⟩).1)
                  (evs ++ (afterScenario minimum_event_length ts triggered slot2
                    ⟨pre.length⟩).2.toList)
            | _, _ => .error .indexError) from rfl]
      rw [htrig, hcur]
      simp only []
      rw [hset]
      have hre :
          pre ++
              (afterScenario minimum_event_length ts (all_triggered.getD pre.length 0) slot
                ⟨pre.length⟩).1 :: rest =
            (pre ++
              [(afterScenario minimum_event_length ts (all_triggered.getD pre.length 0) slot
                ⟨pre.length⟩).1]) ++ rest := by
        simp
      have hlen2 :
          (pre ++
            [(afterScenario minimum_event_length ts (all_triggered.getD pre.length 0) slot
              ⟨pre.length⟩).1]).length = pre.length + 1 := by
        simp
      rw [hre, show pre.length + 1 =
          (pre ++
            [(afterScenario minimum_event_length ts (all_triggered.getD pre.length 0) slot
              ⟨pre.length⟩).1]).length from hlen2.symm]
      rw [ih _ _ (by simp only [List.length_append, List.length_cons] at h ⊢; simpa [hlen2] using by omega)]
      simp [afterSlots, afterNewEvents, hlen2]

lemma after_ok (r : EventRecorder) (n : Nat) (ts : Timestep) (all_triggered : List Int)
    (ht : r.threshold.all_triggered = .ok all_triggered)
    (hn : r.current_events.length = n) (hlen : n ≤ all_triggered.length) :
    r.after n ts =
      .ok { r with
        current_events :=
          afterSlots r.minimum_event_length ts all_triggered 0 r.current_events,
        events :=
          r.events ++
            afterNewEvents r.minimum_event_length ts all_triggered 0 r.current_events } := by
  subst hn
  unfold EventRecorder.after combinations
  have := afterLoop_eq_ok r.minimum_event_length ts all_triggered r.current_events [] r.events
    (by simpa using hlen)
  simp only [List.length_nil, List.nil_append] at this
  rw [List.range_eq_range']
  simp [ht, this]

lemma afterSlots_getElem? (minimum_event_length : Int) (ts : Timestep)
    (all_triggered : List Int) :
    ∀ (current : List (Option Event)) (a i : Nat),
      (afterSlots minimum_event_length ts all_triggered a current)[i]? =
        (current[i]?).map fun slot =>
          (afterScenario minimum_event_length ts (all_triggered.getD (a + i) 0) slot
            ⟨a + i⟩).1 := by
  intro current
  induction current with
  | nil => intro a i; simp [afterSlots]
  | cons slot rest ih =>
      intro a i
      cases i with
      | zero => simp [afterSlots]
      | succ j =>
          simp only [afterSlots, List.getElem?_cons_succ]
          rw [ih (a + 1) j]
          have : a + 1 + j = a + (j + 1) := by omega
          rw [this]

lemma afterNewEvents_mem (minimum_event_length : Int) (ts : Timestep)
    (all_triggered : List Int) :
    ∀ (current : List (Option Event)) (a : Nat) (ev2 : Event),
      ev2 ∈ afterNewEvents minimum_event_length ts all_triggered a current →
      ev2.«end» = some ts ∧
        minimum_event_length ≤ (ts.index : Int) - (ev2.start.index : Int) := by
  intro current
  induction current with
  | nil => intro a ev2 hm; simp [afterNewEvents] at hm
  | cons slot rest ih =>
      intro a ev2 hm
      simp only [afterNewEvents, List.mem_append] at hm
      rcases hm with hm | hm
      · have hsnd :
            (afterScenario minimum_event_length ts (all_triggered.getD a 0) slot ⟨a⟩).2 =
              some ev2 := by
          cases hval :
              (afterScenario minimum_event_length ts (all_triggered.getD a 0) slot ⟨a⟩).2 with
          | none => rw [hval] at hm; simp at hm
          | some x => rw [hval] at hm; simp at hm; subst hm; rfl
        exact afterScenario_snd_eq _ _ _ _ _ _ hsnd
      · exact ih (a + 1) ev2 hm

lemma afterLoop_err (minimum_event_length : Int) (ts : Timestep)
    (all_triggered : List Int) (current : List (Option Event)) :
    ∀ (pre : List (Option Event)) (evs : List Event),
      all_triggered.length < pre.length + current.length →
      pre.length ≤ all_triggered.length →
      afterLoop minimum_event_length ts all_triggered
          ((List.range' pre.length current.length).map ScenarioIndex.mk)
          (pre ++ current) evs = .error .indexError := by
  induction current with
  | nil =>
      intro pre evs h1 h2
      simp only [List.length_nil, Nat.add_zero] at h1
      omega
  | cons slot rest ih =>
      intro pre evs h1 h2
      simp only [List.length_cons]
      rw [List.range'_succ, List.map_cons]
      rw [show (afterLoop minimum_event_length ts all_triggered
            (⟨pre.length⟩ :: (List.range' (pre.length + 1) rest.length).map ScenarioIndex.mk)
            (pre ++ slot :: rest) evs) =
          (match all_triggered[pre.length]?, (pre ++ slot :: rest)[pre.length]? with
            | some triggered, some slot2 =>
                afterLoop minimum_event_length ts all_triggered
                  ((List.range' (pre.length + 1) rest.length).map ScenarioIndex.mk)
                  ((pre ++ slot :: rest).set pre.length
                    (afterScenario minimum_event_length ts triggered slot2 ⟨pre.length⟩).1)
                  (evs ++ (afterScenario minimum_event_length ts triggered slot2
                    ⟨pre.length⟩).2.toList)
            | _, _ => .error .indexError) from rfl]
      by_cases hpre : pre.length = all_triggered.length
      · rw [List.getElem?_eq_none (by omega)]
      · have hlt : pre.length < all_triggered.length := by omega
        rw [List.getElem?_eq_getElem hlt]
        have hcur : (pre ++ slot :: rest)[pre.length]? = some slot := by
          rw [List.getElem?_append_right (le_refl pre.length)]
          simp
        rw [hcur]
        simp only []
        have hset :
            (pre ++ slot :: rest).set pre.length
                (afterScenario minimum_event_length ts all_triggered[pre.length] slot
                  ⟨pre.length⟩).1 =
              (pre ++
                [(afterScenario minimum_event_length ts all_triggered[pre.length] slot
                  ⟨pre.length⟩).1]) ++ rest := by
          rw [List.set_append]
          simp
        rw [hset]
        have hlen2 :
            (pre ++
              [(afterScenario minimum_event_length ts all_triggered[pre.length] slot
                ⟨pre.length⟩).1]).length = pre.length + 1 := by
          simp
        rw [show pre.length + 1 =
            (pre ++
              [(afterScenario minimum_event_length ts all_triggered[pre.length] slot
                ⟨pre.length⟩).1]).length from hlen2.symm]
        apply ih
        · rw [hlen2]
          simp only [List.length_cons] at h1
          omega
        · rw [hlen2]
          omega

lemma after_err (r : EventRecorder) (n : Nat) (ts : Timestep) (all_triggered : List Int)
    (ht : r.threshold.all_triggered = .ok all_triggered)
    (hn : r.current_events.length = n) (hlen : all_triggered.length < n) :
    r.after n ts = .error .indexError := by
  subst hn
  unfold EventRecorder.after combinations
  have := afterLoop_err r.minimum_event_length ts all_triggered r.current_events [] r.events
    (by simpa using hlen) (by simp)
  simp only [List.length_nil, List.nil_append] at this
  rw [List.range_eq_range']
  simp [ht, this]

lemma afterSlots_take (minimum_event_length : Int) (ts : Timestep)
    (all_triggered : List Int) (m : Nat) :
    ∀ (current : List (Option Event)) (a : Nat), a + current.length ≤ m →
      afterSlots minimum_event_length ts (all_triggered.take m) a current =
        afterSlots minimum_event_length ts all_triggered a current := by
  intro current
  induction current with
  | nil => intro a _; simp [afterSlots]
  | cons slot rest ih =>
      intro a h
      simp only [List.length_cons] at h
      have hget : (all_triggered.take m).getD a 0 = all_triggered.getD a 0 := by
        rw [List.getD_eq_getElem?_getD, List.getD_eq_getElem?_getD, List.getElem?_take]
        rw [if_pos (by omega)]
      simp only [afterSlots, hget]
      rw [ih (a + 1) (by omega)]

lemma afterNewEvents_take (minimum_event_length : Int) (ts : Timestep)
    (all_triggered : List Int) (m : Nat) :
    ∀ (current : List (Option Event)) (a : Nat), a + current.length ≤ m →
      afterNewEvents minimum_event_length ts (all_triggered.take m) a current =
        afterNewEvents minimum_event_length ts all_triggered a current := by
  intro current
  induction current with
  | nil => intro a _; simp [afterNewEvents]
  | cons slot rest ih =>
      intro a h
      simp only [List.length_cons] at h
      have hget : (all_triggered.take m).getD a 0 = all_triggered.getD a 0 := by
        rw [List.getD_eq_getElem?_getD, List.getD_eq_getElem?_getD, List.getElem?_take]
        rw [if_pos (by omega)]
      simp only [afterNewEvents, hget]
      rw [ih (a + 1) (by omega)]

/-! ### Properties of the scenario loop of `finish` -/

lemma finishLoop_eq_ok (ts : Timestep) (current : List (Option Event)) :
    ∀ (pre : List (Option Event)) (evs : List Event),
      finishLoop ts ((List.range' pre.length current.length).map ScenarioIndex.mk)
          (pre ++ current) evs =
        .ok (pre ++ current.map (fun _ => none),
             evs ++ current.filterMap (fun slot => slot.map (closeEvent ts))) := by
  induction current with
  | nil => intro pre evs; simp [finishLoop]
  | cons slot rest ih =>
      intro pre evs
      simp only [List.length_cons]
      rw [List.range'_succ, List.map_cons]
      have hcur : (pre ++ slot :: rest)[pre.length]? = some slot := by
        rw [List.getElem?_append_right (le_refl pre.length)]
        simp
      rw [show (finishLoop ts
            (⟨pre.length⟩ :: (List.range' (pre.length + 1) rest.length).map ScenarioIndex.mk)
            (pre ++ slot :: rest) evs) =
          (match (pre ++ slot :: rest)[pre.length]? with
            | none => .error .indexError
            | some slot2 =>
                match slot2 with
                | some ev =>
                    finishLoop ts
                      ((List.range' (pre.length + 1) rest.length).map ScenarioIndex.mk)
                      ((pre ++ slot :: rest).set pre.length none)
                      (evs ++ [closeEvent ts ev])
                | none =>
                    finishLoop ts
                      ((List.range' (pre.length + 1) rest.length).map ScenarioIndex.mk)
                      (pre ++ slot :: rest) evs) from rfl]
      rw [hcur]
      cases slot with
      | some ev =>
          simp only []
          have hset : (pre ++ some ev :: rest).set pre.length none =
              (pre ++ [none]) ++ rest := by
            rw [List.set_append]
            simp
          rw [hset]
          rw [show pre.length + 1 = (pre ++ [(none : Option Event)]).length by simp]
          rw [ih (pre ++ [none]) (evs ++ [closeEvent ts ev])]
          simp
      | none =>
          simp only []
          rw [show pre ++ (none : Option Event) :: rest = (pre ++ [none]) ++ rest by simp]
          rw [show pre.length + 1 = (pre ++ [(none : Option Event)]).length by simp]
          rw [ih (pre ++ [none]) evs]
          simp

lemma finish_ok (r : EventRecorder) (n : Nat) (ts : Timestep)
    (hn : r.current_events.length = n) :
    r.finish n ts =
      .ok { r with
        current_events := List.replicate n none,
        events :=
          r.events ++
            r.current_events.filterMap (fun slot => slot.map (closeEvent ts)) } := by
  unfold EventRecorder.finish combinations
  rw [← hn, List.range_eq_range']
  have := finishLoop_eq_ok ts r.current_events [] r.events
  simp only [List.length_nil, List.nil_append] at this
  rw [this]
  have hrep : r.current_events.map (fun _ => (none : Option Event)) =
      List.replicate r.current_events.length none := by
    induction r.current_events with
    | nil => simp
    | cons a l ihl => simp [List.replicate_succ, ihl]
  rw [hrep]

/-! ### Properties of the export and of the duration aggregation -/

lemma mapM_eventRow_ok (events : List Event) (h : ∀ ev ∈ events, ev.«end».isSome) :
    events.mapM eventRow =
      .ok (events.map fun ev =>
        (ev.scenario_index.global_id, ev.start.datetime,
          (ev.«end».getD ev.start).datetime)) := by
  induction events with
  | nil => rfl
  | cons ev rest ih =>
      have hend := h ev (by simp)
      obtain ⟨e, he⟩ := Option.isSome_iff_exists.mp hend
      have hrow : eventRow ev =
          .ok (ev.scenario_index.global_id, ev.start.datetime, e.datetime) := by
        simp [eventRow, he]
      rw [List.mapM_cons, hrow, ih (fun x hx => h x (by simp [hx]))]
      simp [he]
      rfl

lemma to_dataframeAux_ok (events : List Event) (h : ∀ ev ∈ events, ev.«end».isSome) :
    to_dataframeAux events =
      .ok { columns := ["scenario_id", "start", "end"],
            rows := events.map fun ev =>
              (ev.scenario_index.global_id, ev.start.datetime,
                (ev.«end».getD ev.start).datetime) } := by
  unfold to_dataframeAux
  by_cases hnil : events.length = 0
  · rw [if_pos hnil]
    have hev : events = [] := List.length_eq_zero.mp hnil
    subst hev
    simp
  · rw [if_neg hnil, mapM_eventRow_ok events h]

lemma mem_insertSorted (k b : Nat) : ∀ (l : List Nat), b ∈ insertSorted k l ↔ b = k ∨ b ∈ l := by
  intro l
  induction l with
  | nil => simp [insertSorted]
  | cons a rest ih =>
      by_cases h : k ≤ a
      · simp [insertSorted, h]
      · simp only [insertSorted, if_neg h, List.mem_cons, ih]
        tauto

lemma mem_sortKeys (b : Nat) : ∀ (l : List Nat), b ∈ sortKeys l ↔ b ∈ l := by
  intro l
  induction l with
  | nil => simp [sortKeys]
  | cons a rest ih => simp [sortKeys, mem_insertSorted, ih]

lemma nodup_insertSorted (k : Nat) :
    ∀ (l : List Nat), l.Nodup → k ∉ l → (insertSorted k l).Nodup := by
  intro l
  induction l with
  | nil => intro _ _; simp [insertSorted]
  | cons a rest ih =>
      intro hnd hk
      rcases List.nodup_cons.mp hnd with ⟨ha, hrest⟩
      have hka : k ≠ a := fun he => hk (by simp [he])
      have hkrest : k ∉ rest := fun he => hk (by simp [he])
      by_cases h : k ≤ a
      · simp only [insertSorted, if_pos h]
        refine List.nodup_cons.mpr ⟨?_, hnd⟩
        simp [hka, hkrest]
      · simp only [insertSorted, if_neg h]
        refine List.nodup_cons.mpr ⟨?_, ih hrest hkrest⟩
        rw [mem_insertSorted]
        push_neg
        exact ⟨fun he => hka he.symm, ha⟩

lemma nodup_sortKeys : ∀ (l : List Nat), l.Nodup → (sortKeys l).Nodup := by
  intro l
  induction l with
  | nil => intro _; simp [sortKeys]
  | cons a rest ih =>
      intro hnd
      rcases List.nodup_cons.mp hnd with ⟨ha, hrest⟩
      exact nodup_insertSorted a (sortKeys rest) (ih hrest)
        (fun hm => ha ((mem_sortKeys a rest).mp hm))

lemma mem_uniqueKeys (b : Nat) : ∀ (l : List Nat), b ∈ uniqueKeys l ↔ b ∈ l := by
  intro l
  induction l with
  | nil => simp [uniqueKeys]
  | cons a rest ih =>
      by_cases h : a ∈ rest
      · simp only [uniqueKeys, if_pos h, ih, List.mem_cons]
        constructor
        · exact Or.inr
        · rintro (he | hm)
          · exact he ▸ h
          · exact hm
      · simp [uniqueKeys, h, ih]

lemma nodup_uniqueKeys : ∀ (l : List Nat), (uniqueKeys l).Nodup := by
  intro l
  induction l with
  | nil => simp [uniqueKeys]
  | cons a rest ih =>
      by_cases h : a ∈ rest
      · simpa [uniqueKeys, h] using ih
      · simp only [uniqueKeys, if_neg h]
        exact List.nodup_cons.mpr ⟨fun hm => h ((mem_uniqueKeys a rest).mp hm), ih⟩

lemma writeGroups_ok (agg : AggFunc) (durs : List (Nat × Int)) :
    ∀ (keys : List Nat) (values : List ℚ),
      (∀ k ∈ keys, k < values.length) → keys.Nodup →
      ∃ out, writeGroups (some agg) durs keys values = .ok out ∧
        out.length = values.length ∧
        ∀ i : Nat,
          out[i]? =
            if i ∈ keys then some (agg (groupDurations durs i)) else values[i]? := by
  intro keys
  induction keys with
  | nil =>
      intro values _ _
      exact ⟨values, rfl, rfl, fun i => by simp⟩
  | cons k rest ih =>
      intro values hk hnd
      rcases List.nodup_cons.mp hnd with ⟨hknotin, hndrest⟩
      have hklt : k < values.length := hk k (by simp)
      have hstep :
          writeGroups (some agg) durs (k :: rest) values =
            writeGroups (some agg) durs rest
              (values.set k (agg (groupDurations durs k))) := by
        simp [writeGroups, applyAgg, hklt]
      obtain ⟨out, hout, hlen, hchar⟩ :=
        ih (values.set k (agg (groupDurations durs k)))
          (fun k2 hk2 => by
            rw [List.length_set]
            exact hk k2 (by simp [hk2]))
          hndrest
      refine ⟨out, by rw [hstep]; exact hout, by rw [hlen, List.length_set], ?_⟩
      intro i
      rw [hchar i]
      by_cases hmem : i ∈ rest
      · rw [if_pos hmem, if_pos (by simp [hmem])]
      · rw [if_neg hmem]
        by_cases hik : i = k
        · subst hik
          rw [if_pos (by simp)]
          rw [List.getElem?_set]
          rw [if_pos rfl, if_pos hklt]
        · rw [if_neg (by simp [hik, hmem])]
          rw [List.getElem?_set, if_neg (fun he => hik he.symm)]

lemma duration_finish_spec (agg : AggFunc) (n : Nat) (events : List Event)
    (hend : ∀ ev ∈ events, ev.«end».isSome)
    (hgid : ∀ ev ∈ events, ev.scenario_index.global_id < n) :
    ∃ values, EventDurationRecorder.finish ⟨some agg⟩ n events = .ok values ∧
      values.length = n ∧
      ∀ i : Nat, i < n →
        values.getD i 0 =
          if (events.filter fun ev => ev.scenario_index.global_id = i) = [] then 0
          else
            agg ((events.filter fun ev => ev.scenario_index.global_id = i).map fun ev =>
              ((ev.«end».getD ev.start).datetime - ev.start.datetime).fdiv 86400) := by
  by_cases hnil : events = []
  · subst hnil
    refine ⟨List.replicate n 0, ?_, ?_, ?_⟩
    · unfold EventDurationRecorder.finish
      rw [to_dataframeAux_ok [] (by simp)]
      rfl
    · simp
    · intro i hi
      rw [List.getD_eq_getElem?_getD, List.getElem?_replicate, if_pos hi]
      simp
  · have hfin :
        EventDurationRecorder.finish ⟨some agg⟩ n events =
          writeGroups (some agg)
            (durationRows (events.map fun ev =>
              (ev.scenario_index.global_id, ev.start.datetime,
                (ev.«end».getD ev.start).datetime)))
            (groupKeys (durationRows (events.map fun ev =>
              (ev.scenario_index.global_id, ev.start.datetime,
                (ev.«end».getD ev.start).datetime))))
            (List.replicate n 0) := by
      unfold EventDurationRecorder.finish
      rw [to_dataframeAux_ok events hend]
      have hlenne : ¬ ((events.map fun ev =>
          (ev.scenario_index.global_id, ev.start.datetime,
            (ev.«end».getD ev.start).datetime)).length = 0) := by
        simpa [List.length_eq_zero] using hnil
      simp only [if_neg hlenne]
    set f : Event → Nat × Int := fun ev =>
      (ev.scenario_index.global_id,
        ((ev.«end».getD ev.start).datetime - ev.start.datetime).fdiv 86400) with hf
    have hdr :
        durationRows (events.map fun ev =>
          (ev.scenario_index.global_id, ev.start.datetime,
            (ev.«end».getD ev.start).datetime)) = events.map f := by
      unfold durationRows tdDays
      rw [List.map_map]
      rfl
    rw [hdr] at hfin
    have hmapfst : (events.map f).map Prod.fst =
        events.map fun ev => ev.scenario_index.global_id := by
      rw [List.map_map]
      rfl
    have hkeys : ∀ i : Nat,
        i ∈ groupKeys (events.map f) ↔
          ∃ ev ∈ events, ev.scenario_index.global_id = i := by
      intro i
      unfold groupKeys
      rw [mem_sortKeys, mem_uniqueKeys, hmapfst, List.mem_map]
    have hnodup : (groupKeys (events.map f)).Nodup :=
      nodup_sortKeys _ (nodup_uniqueKeys _)
    have hkb : ∀ k ∈ groupKeys (events.map f), k < (List.replicate n (0 : ℚ)).length := by
      intro k hk
      rw [List.length_replicate]
      obtain ⟨ev, hev, hgev⟩ := (hkeys k).mp hk
      exact hgev ▸ hgid ev hev
    obtain ⟨out, hout, hlen, hchar⟩ := writeGroups_ok agg (events.map f)
      (groupKeys (events.map f)) (List.replicate n 0) hkb hnodup
    have hgroup : ∀ i : Nat,
        groupDurations (events.map f) i =
          (events.filter fun ev => ev.scenario_index.global_id = i).map fun ev =>
            ((ev.«end».getD ev.start).datetime - ev.start.datetime).fdiv 86400 := by
      intro i
      unfold groupDurations
      rw [List.filter_map, List.map_map]
      rfl
    have hfilter : ∀ i : Nat,
        ((events.filter fun ev => ev.scenario_index.global_id = i) = [] ↔
          i ∉ groupKeys (events.map f)) := by
      intro i
      rw [List.filter_eq_nil_iff]
      constructor
      · intro hall hk
        obtain ⟨ev, hev, hgev⟩ := (hkeys i).mp hk
        exact (by simpa using hall ev hev : ev.scenario_index.global_id ≠ i) hgev
      · intro hnone ev hev
        simp only [decide_eq_true_eq]
        intro hgev
        exact hnone ((hkeys i).mpr ⟨ev, hev, hgev⟩)
    refine ⟨out, by rw [hfin]; exact hout, by rw [hlen, List.length_replicate], ?_⟩
    intro i hi
    rw [List.getD_eq_getElem?_getD, hchar i]
    by_cases hmem : i ∈ groupKeys (events.map f)
    · rw [if_pos hmem, if_neg (fun he => (hfilter i).mp he hmem)]
      rw [hgroup i]
      rfl
    · rw [if_neg hmem, if_pos ((hfilter i).mpr hmem)]
      rw [List.getElem?_replicate, if_pos hi]
      rfl

/-! ### Claim theorems -/

/-- C1: mid-run closure filter.  When the scenario loop of `after` sees an
open event and a non-triggered indicator, the open event gets
`end := timestep` and is appended to the finalized list exactly when
`timestep.index - start.index >= minimum_event_length`; the open slot is
cleared in both cases, so a too-short event is permanently dropped. -/
theorem C1_midrun_closure_filter (minimum_event_length : Int) (ts : Timestep)
    (triggered : Int) (ev : Event) (si : ScenarioIndex) (h : triggered = 0) :
    afterScenario minimum_event_length ts triggered (some ev) si =
      (none,
        if minimum_event_length ≤ (ts.index : Int) - (ev.start.index : Int) then
          some { ev with «end» := some ts }
        else none) := by
  subst h
  simp [afterScenario]

theorem C1_midrun_closure_filter_witness :
    afterScenario 2 ⟨5, 50⟩ 0
        (some { start := ⟨1, 10⟩, scenario_index := ⟨0⟩, «end» := none }) ⟨0⟩ =
      (none, some { start := ⟨1, 10⟩, scenario_index := ⟨0⟩, «end» := some ⟨5, 50⟩ }) := by
  rw [C1_midrun_closure_filter 2 ⟨5, 50⟩ 0
    { start := ⟨1, 10⟩, scenario_index := ⟨0⟩, «end» := none } ⟨0⟩ rfl]
  decide

/-- C2: finalize is unconditional.  Every open event gets
`end := final_timestep` and is appended to the finalized list with no
minimum-length check, every open slot is cleared afterwards, and a second
`finish` call (with no open events left) changes nothing. -/
theorem C2_finalize_unconditional (r : EventRecorder) (n : Nat) (ts : Timestep)
    (hn : r.current_events.length = n) :
    ∃ r2, r.finish n ts = .ok r2 ∧
      r2.events =
        r.events ++ r.current_events.filterMap (fun slot => slot.map (closeEvent ts)) ∧
      r2.current_events = List.replicate n none ∧
      r2.finish n ts = .ok r2 := by
  refine ⟨_, finish_ok r n ts hn, rfl, rfl, ?_⟩
  rw [finish_ok _ n ts (by simp)]
  simp [List.filterMap_replicate]

theorem C2_finalize_unconditional_witness :
    ∃ r2,
      ({ threshold := Threshold.indexParameter [0], minimum_event_length := 3,
         events := [],
         current_events := [some { start := ⟨4, 40⟩, scenario_index := ⟨0⟩, «end» := none }] } :
          EventRecorder).finish 1 ⟨5, 50⟩ = .ok r2 ∧
      r2.events =
        [] ++
          [some { start := ⟨4, 40⟩, scenario_index := ⟨0⟩, «end» := none }].filterMap
            (fun slot => slot.map (closeEvent ⟨5, 50⟩)) ∧
      r2.current_events = List.replicate 1 none ∧
      r2.finish 1 ⟨5, 50⟩ = .ok r2 :=
  C2_finalize_unconditional
    { threshold := Threshold.indexParameter [0], minimum_event_length := 3,
      events := [],
      current_events := [some { start := ⟨4, 40⟩, scenario_index := ⟨0⟩, «end» := none }] }
    1 ⟨5, 50⟩ rfl

/-- C7: construction validation.  Constructing the recorder with
`minimum_event_length < 1` fails with the construction-time error before
any run starts, and construction with `minimum_event_length ≥ 1`
succeeds. -/
theorem C7_construction_validation (thr : Threshold) (minimum_event_length : Int) :
    (minimum_event_length < 1 →
      EventRecorder.init thr minimum_event_length =
        .error (.valueError "Keyword \x22minimum_event_length\x22 must be >= 1")) ∧
    (1 ≤ minimum_event_length →
      EventRecorder.init thr minimum_event_length =
        .ok { threshold := thr, minimum_event_length := minimum_event_length,
              events := [], current_events := [] }) := by
  constructor
  · intro h
    simp [EventRecorder.init, h]
  · intro h
    unfold EventRecorder.init
    rw [if_neg (by omega)]

theorem C7_construction_validation_witness :
    EventRecorder.init Threshold.other 0 =
      .error (.valueError "Keyword \x22minimum_event_length\x22 must be >= 1") ∧
    EventRecorder.init Threshold.other 1 =
      .ok { threshold := Threshold.other, minimum_event_length := 1,
            events := [], current_events := [] } :=
  ⟨(C7_construction_validation Threshold.other 0).1 (by decide),
   (C7_construction_validation Threshold.other 1).2 (by decide)⟩

/-- C10: tabular export.  On an empty event list `to_dataframe` returns an
empty table that still has exactly the columns scenario_id, start, end
(without failing); on a list of closed events, row `i` carries event `i`'s
scenario global_id, start timestamp and end timestamp in finalization
order. -/
theorem C10_to_dataframe_rows (r : EventRecorder)
    (h : ∀ ev ∈ r.events, ev.«end».isSome) :
    r.to_dataframe =
      .ok { columns := ["scenario_id", "start", "end"],
            rows := r.events.map fun ev =>
              (ev.scenario_index.global_id, ev.start.datetime,
                (ev.«end».getD ev.start).datetime) } :=
  to_dataframeAux_ok r.events h

theorem C10_to_dataframe_rows_witness :
    ({ threshold := Threshold.other, minimum_event_length := 1,
       events := [{ start := ⟨0, 0⟩, scenario_index := ⟨7⟩, «end» := some ⟨1, 86400⟩ }],
       current_events := [] } : EventRecorder).to_dataframe =
      .ok { columns := ["scenario_id", "start", "end"], rows := [(7, 0, 86400)] } :=
  C10_to_dataframe_rows
    { threshold := Threshold.other, minimum_event_length := 1,
      events := [{ start := ⟨0, 0⟩, scenario_index := ⟨7⟩, «end» := some ⟨1, 86400⟩ }],
      current_events := [] }
    (by decide)

/-- C3: aggregation correctness.  For closed events with scenario ids
below `n`, the duration recorder computes, at each scenario index, the
configured reduction of the durations of that scenario's events (in
finalization order), where each duration is the integer-truncated whole
number of days between the event's end and start timestamps; a scenario
with no events yields zero. -/
theorem C3_aggregation_correctness (agg : AggFunc) (n : Nat) (events : List Event)
    (hend : ∀ ev ∈ events, ev.«end».isSome)
    (hgid : ∀ ev ∈ events, ev.scenario_index.global_id < n)
    (hmono : ∀ ev ∈ events, ev.start.datetime ≤ (ev.«end».getD ev.start).datetime) :
    ∃ values, EventDurationRecorder.finish ⟨some agg⟩ n events = .ok values ∧
      values.length = n ∧
      ∀ i : Nat, i < n →
        values.getD i 0 =
          if (events.filter fun ev => ev.scenario_index.global_id = i) = [] then 0
          else
            agg ((events.filter fun ev => ev.scenario_index.global_id = i).map fun ev =>
              ((ev.«end».getD ev.start).datetime - ev.start.datetime).tdiv 86400) := by
  obtain ⟨values, hv, hlen, hchar⟩ := duration_finish_spec agg n events hend hgid
  refine ⟨values, hv, hlen, ?_⟩
  intro i hi
  rw [hchar i hi]
  by_cases hmem : (events.filter fun ev => ev.scenario_index.global_id = i) = []
  · rw [if_pos hmem, if_pos hmem]
  · rw [if_neg hmem, if_neg hmem]
    congr 1
    apply List.map_congr_left
    intro ev hev
    have hev2 : ev ∈ events := (List.mem_filter.mp hev).1
    exact Int.fdiv_eq_tdiv (by have := hmono ev hev2; omega) (by omega)

theorem C3_aggregation_correctness_witness :
    ∃ values,
      EventDurationRecorder.finish ⟨some (fun ds => (ds.length : ℚ))⟩ 2
          [{ start := ⟨0, 0⟩, scenario_index := ⟨0⟩, «end» := some ⟨3, 259200⟩ }] =
        .ok values ∧
      values.length = 2 ∧
      ∀ i : Nat, i < 2 →
        values.getD i 0 =
          if (([{ start := ⟨0, 0⟩, scenario_index := ⟨0⟩, «end» := some ⟨3, 259200⟩ }] :
                List Event).filter
              fun ev => ev.scenario_index.global_id = i) = [] then 0
          else
            (fun ds => (ds.length : ℚ))
              ((([{ start := ⟨0, 0⟩, scenario_index := ⟨0⟩, «end» := some ⟨3, 259200⟩ }] :
                  List Event).filter
                fun ev => ev.scenario_index.global_id = i).map fun ev =>
                ((ev.«end».getD ev.start).datetime - ev.start.datetime).tdiv 86400) :=
  C3_aggregation_correctness (fun ds => (ds.length : ℚ)) 2
    [{ start := ⟨0, 0⟩, scenario_index := ⟨0⟩, «end» := some ⟨3, 259200⟩ }]
    (by decide) (by decide) (by decide)

lemma after_single_slot (thr : Threshold) (t : Int) (minimum_event_length : Int)
    (ts : Timestep) (ht : thr.all_triggered = .ok [t]) :
    ∃ r2,
      ({ threshold := thr, minimum_event_length := minimum_event_length,
         events := [], current_events := [none] } : EventRecorder).after 1 ts = .ok r2 ∧
      ((r2.current_events.getD 0 none).isSome ↔ t ≠ 0) := by
  refine ⟨_, after_ok _ 1 ts [t] ht rfl (by simp), ?_⟩
  show ((afterSlots minimum_event_length ts [t] 0 [none]).getD 0 none).isSome ↔ t ≠ 0
  simp only [afterSlots]
  show ((afterScenario minimum_event_length ts t none ⟨0⟩).1).isSome ↔ t ≠ 0
  exact afterScenario_fst_isSome minimum_event_length ts t none ⟨0⟩

/-- C4 counterexample: the claim says any non-zero continuous indicator
value, for example one half, counts as triggered; but the `np.int` cast in
`after` truncates one half to zero, so the slot stays empty and no event
opens — the recorder is returned unchanged. -/
theorem C4_nonzero_policy_counterexample :
    (mkRat 1 2 ≠ 0) ∧
    ({ threshold := Threshold.parameter [mkRat 1 2], minimum_event_length := 1,
       events := [], current_events := [none] } : EventRecorder).after 1 ⟨0, 0⟩ =
    Except.ok
      { threshold := Threshold.parameter [mkRat 1 2], minimum_event_length := 1,
        events := [], current_events := [none] } := by
  constructor
  · decide
  · decide

/-- C4 amended: a scenario is treated as active exactly when the indicator
value after the `np.int` cast (truncation toward zero) is non-zero.  For
`Recorder` and continuous `Parameter` sources a value in the open unit
interval, such as one half, truncates to zero and does not trigger; an
`IndexParameter` index triggers exactly when non-zero. -/
theorem C4_truncated_activity_policy (v : ℚ) (iv minimum_event_length : Int)
    (ts : Timestep) :
    (∃ r2,
      ({ threshold := Threshold.parameter [v], minimum_event_length := minimum_event_length,
         events := [], current_events := [none] } : EventRecorder).after 1 ts = .ok r2 ∧
      ((r2.current_events.getD 0 none).isSome ↔ npIntCast v ≠ 0)) ∧
    (∃ r2,
      ({ threshold := Threshold.recorder [v], minimum_event_length := minimum_event_length,
         events := [], current_events := [none] } : EventRecorder).after 1 ts = .ok r2 ∧
      ((r2.current_events.getD 0 none).isSome ↔ npIntCast v ≠ 0)) ∧
    (∃ r2,
      ({ threshold := Threshold.indexParameter [iv],
         minimum_event_length := minimum_event_length,
         events := [], current_events := [none] } : EventRecorder).after 1 ts = .ok r2 ∧
      ((r2.current_events.getD 0 none).isSome ↔ iv ≠ 0)) :=
  ⟨after_single_slot (Threshold.parameter [v]) (npIntCast v) minimum_event_length ts rfl,
   after_single_slot (Threshold.recorder [v]) (npIntCast v) minimum_event_length ts rfl,
   after_single_slot (Threshold.indexParameter [iv]) iv minimum_event_length ts rfl⟩

/-- C5 counterexample: with one scenario and a two-entry indicator vector
the `after` call succeeds — processing only entry 0 and ignoring the
second entry — instead of failing with a shape-mismatch error. -/
theorem C5_shape_mismatch_counterexample :
    ({ threshold := Threshold.indexParameter [1, 1], minimum_event_length := 1,
       events := [], current_events := [none] } : EventRecorder).after 1 ⟨0, 0⟩ =
    Except.ok
      { threshold := Threshold.indexParameter [1, 1], minimum_event_length := 1,
        events := [],
        current_events := [some { start := ⟨0, 0⟩, scenario_index := ⟨0⟩, «end» := none }] } := by
  decide

/-- C5 amended: `after` performs no shape check.  A normalized indicator
vector with at least `n` entries is accepted and its entries beyond the
first `n` are ignored (the result is the one computed from the vector
truncated to `n` entries), while a vector with fewer than `n` entries
fails with an index error on the out-of-range subscript, not with a
dedicated shape-mismatch error. -/
theorem C5_no_shape_check (r : EventRecorder) (n : Nat) (ts : Timestep)
    (all_triggered : List Int)
    (ht : r.threshold.all_triggered = .ok all_triggered)
    (hn : r.current_events.length = n) :
    (n ≤ all_triggered.length →
      r.after n ts =
        .ok { r with
          current_events :=
            afterSlots r.minimum_event_length ts (all_triggered.take n) 0 r.current_events,
          events :=
            r.events ++
              afterNewEvents r.minimum_event_length ts (all_triggered.take n) 0
                r.current_events }) ∧
    (all_triggered.length < n → r.after n ts = .error .indexError) := by
  constructor
  · intro hle
    rw [after_ok r n ts all_triggered ht hn hle]
    rw [afterSlots_take r.minimum_event_length ts all_triggered n r.current_events 0
      (by omega)]
    rw [afterNewEvents_take r.minimum_event_length ts all_triggered n r.current_events 0
      (by omega)]
  · intro hlt
    exact after_err r n ts all_triggered ht hn hlt

theorem C5_no_shape_check_witness :
    ((1 ≤ ([1, 1] : List Int).length →
      ({ threshold := Threshold.indexParameter [1, 1], minimum_event_length := 1,
         events := [], current_events := [none] } : EventRecorder).after 1 ⟨0, 0⟩ =
        .ok { threshold := Threshold.indexParameter [1, 1], minimum_event_length := 1,
              events :=
                [] ++ afterNewEvents 1 ⟨0, 0⟩ (([1, 1] : List Int).take 1) 0 [none],
              current_events := afterSlots 1 ⟨0, 0⟩ (([1, 1] : List Int).take 1) 0 [none] }) ∧
     (([1, 1] : List Int).length < 1 →
      ({ threshold := Threshold.indexParameter [1, 1], minimum_event_length := 1,
         events := [], current_events := [none] } : EventRecorder).after 1 ⟨0, 0⟩ =
        .error .indexError)) :=
  C5_no_shape_check
    { threshold := Threshold.indexParameter [1, 1], minimum_event_length := 1,
      events := [], current_events := [none] }
    1 ⟨0, 0⟩ [1, 1] rfl rfl

/-- C6 counterexample: an event opened on the final timestep and
force-closed by `finish` at that same timestep has `start.index = 0` and
`end.index = 0`, so `start.index < end.index` fails for an event whose end
has been assigned. -/
theorem C6_span_counterexample :
    (do
      let r0 ← EventRecorder.init (Threshold.indexParameter [1]) 1
      let r1 ← (r0.reset 1).after 1 ⟨0, 0⟩
      let r2 ← r1.finish 1 ⟨0, 0⟩
      pure (r2.events.map fun ev => (ev.start.index, ev.«end».map Timestep.index))) =
      Except.ok [(0, some 0)] ∧ ¬ (0 < 0) := by
  constructor
  · decide
  · decide

/-- C6 amended: every event closed mid-run by `after` satisfies
`start.index < end.index` whenever `minimum_event_length ≥ 1` (the length
filter forces a positive span), but an event force-closed by `finish`
only gets `end = final_timestep` and can have `start.index = end.index`
when it opened on the final timestep. -/
theorem C6_span_invariant_midrun (r : EventRecorder) (n : Nat) (ts : Timestep)
    (all_triggered : List Int)
    (ht : r.threshold.all_triggered = .ok all_triggered)
    (hn : r.current_events.length = n) (hlen : n ≤ all_triggered.length)
    (hmin : 1 ≤ r.minimum_event_length) :
    ∃ r2, r.after n ts = .ok r2 ∧
      ∀ ev ∈ r2.events, ev ∈ r.events ∨
        (ev.«end» = some ts ∧ ev.start.index < ts.index) := by
  refine ⟨_, after_ok r n ts all_triggered ht hn hlen, ?_⟩
  intro ev hev
  rcases List.mem_append.mp hev with h | h
  · exact Or.inl h
  · obtain ⟨he, hb⟩ := afterNewEvents_mem r.minimum_event_length ts all_triggered
      r.current_events 0 ev h
    exact Or.inr ⟨he, by omega⟩

theorem C6_span_invariant_midrun_witness :
    ∃ r2,
      ({ threshold := Threshold.indexParameter [0], minimum_event_length := 1,
         events := [],
         current_events := [some { start := ⟨0, 0⟩, scenario_index := ⟨0⟩, «end» := none }] } :
          EventRecorder).after 1 ⟨1, 86400⟩ = .ok r2 ∧
      ∀ ev ∈ r2.events,
        ev ∈ ({ threshold := Threshold.indexParameter [0], minimum_event_length := 1,
                events := [],
                current_events :=
                  [some { start := ⟨0, 0⟩, scenario_index := ⟨0⟩, «end» := none }] } :
            EventRecorder).events ∨
          (ev.«end» = some ⟨1, 86400⟩ ∧ ev.start.index < (1 : Nat)) :=
  C6_span_invariant_midrun
    { threshold := Threshold.indexParameter [0], minimum_event_length := 1,
      events := [],
      current_events := [some { start := ⟨0, 0⟩, scenario_index := ⟨0⟩, «end» := none }] }
    1 ⟨1, 86400⟩ [0] rfl rfl (by decide) (by decide)

/-- C8 counterexample: with neither `recorder_agg_func` nor `agg_func`
configured the selected reduction function is `None`, and aggregating one
event of duration one day fails with a `TypeError` instead of returning
its sum. -/
theorem C8_default_sum_counterexample :
    EventDurationRecorder.finish (EventDurationRecorder.init none none) 1
        [{ start := ⟨0, 0⟩, scenario_index := ⟨0⟩, «end» := some ⟨1, 86400⟩ }] =
      .error (.typeError "NoneType object is not callable") ∧
    (EventDurationRecorder.init none none).recorder_agg_func.isNone = true :=
  ⟨by decide, rfl⟩

/-- C8 amended: the aggregator does not default to `sum`.  The reduction
function falls back to the scenario-level `agg_func` keyword when
`recorder_agg_func` is not configured; when that keyword is `sum`,
`compute()` returns the per-scenario sums of the event durations, and when
neither keyword is configured the reduction function is `None` and
aggregation fails. -/
theorem C8_default_reducer_fallback (agg : AggFunc) (n : Nat) (events : List Event)
    (hend : ∀ ev ∈ events, ev.«end».isSome)
    (hgid : ∀ ev ∈ events, ev.scenario_index.global_id < n) :
    (EventDurationRecorder.init none (some agg)).recorder_agg_func = some agg ∧
    (EventDurationRecorder.init none none).recorder_agg_func = none ∧
    (∃ values,
      EventDurationRecorder.finish (EventDurationRecorder.init none (some sumAgg)) n
          events = .ok values ∧
      values.length = n ∧
      ∀ i : Nat, i < n →
        values.getD i 0 =
          if (events.filter fun ev => ev.scenario_index.global_id = i) = [] then 0
          else
            sumAgg ((events.filter fun ev => ev.scenario_index.global_id = i).map fun ev =>
              ((ev.«end».getD ev.start).datetime - ev.start.datetime).fdiv 86400)) :=
  ⟨rfl, rfl, duration_finish_spec sumAgg n events hend hgid⟩

theorem C8_default_reducer_fallback_witness :
    ((EventDurationRecorder.init none (some (fun _ => (5 : ℚ)))).recorder_agg_func =
      some (fun _ => (5 : ℚ))) ∧
    (EventDurationRecorder.init none none).recorder_agg_func = none ∧
    (∃ values,
      EventDurationRecorder.finish (EventDurationRecorder.init none (some sumAgg)) 1
          [{ start := ⟨0, 0⟩, scenario_index := ⟨0⟩, «end» := some ⟨2, 172800⟩ }] =
        .ok values ∧
      values.length = 1 ∧
      ∀ i : Nat, i < 1 →
        values.getD i 0 =
          if (([{ start := ⟨0, 0⟩, scenario_index := ⟨0⟩, «end» := some ⟨2, 172800⟩ }] :
                List Event).filter
              fun ev => ev.scenario_index.global_id = i) = [] then 0
          else
            sumAgg
              ((([{ start := ⟨0, 0⟩, scenario_index := ⟨0⟩, «end» := some ⟨2, 172800⟩ }] :
                  List Event).filter
                fun ev => ev.scenario_index.global_id = i).map fun ev =>
                ((ev.«end».getD ev.start).datetime - ev.start.datetime).fdiv 86400)) :=
  C8_default_reducer_fallback (fun _ => (5 : ℚ)) 1
    [{ start := ⟨0, 0⟩, scenario_index := ⟨0⟩, «end» := some ⟨2, 172800⟩ }]
    (by decide) (by decide)

/-- C9: open-slot tracking invariant.  After a successful `after` call the
open slot of scenario `i` is occupied exactly when indicator `i` was
non-zero on that call, regardless of the slot's previous state; in
particular at most one event is open per scenario. -/
theorem C9_open_slot_iff_triggered (r : EventRecorder) (n : Nat) (ts : Timestep)
    (all_triggered : List Int)
    (ht : r.threshold.all_triggered = .ok all_triggered)
    (hn : r.current_events.length = n) (hlen : n ≤ all_triggered.length) :
    ∃ r2, r.after n ts = .ok r2 ∧
      ∀ i : Nat, i < n →
        ((r2.current_events.getD i none).isSome ↔ all_triggered.getD i 0 ≠ 0) := by
  refine ⟨_, after_ok r n ts all_triggered ht hn hlen, ?_⟩
  intro i hi
  show ((afterSlots r.minimum_event_length ts all_triggered 0
      r.current_events).getD i none).isSome ↔ _
  rw [List.getD_eq_getElem?_getD,
    afterSlots_getElem? r.minimum_event_length ts all_triggered r.current_events 0 i]
  have hsome : r.current_events[i]? = some (r.current_events.getD i none) := by
    rw [List.getD_eq_getElem?_getD,
      List.getElem?_eq_getElem (show i < r.current_events.length by omega)]
    rfl
  rw [hsome]
  simp only [Option.map_some', Option.getD_some, Nat.zero_add]
  exact afterScenario_fst_isSome r.minimum_event_length ts (all_triggered.getD i 0)
    (r.current_events.getD i none) ⟨i⟩

theorem C9_open_slot_iff_triggered_witness :
    ∃ r2,
      ({ threshold := Threshold.indexParameter [1, 0], minimum_event_length := 1,
         events := [],
         current_events :=
           [none, some { start := ⟨0, 0⟩, scenario_index := ⟨1⟩, «end» := none }] } :
          EventRecorder).after 2 ⟨1, 86400⟩ = .ok r2 ∧
      ∀ i : Nat, i < 2 →
        ((r2.current_events.getD i none).isSome ↔ ([1, 0] : List Int).getD i 0 ≠ 0) :=
  C9_open_slot_iff_triggered
    { threshold := Threshold.indexParameter [1, 0], minimum_event_length := 1,
      events := [],
      current_events :=
        [none, some { start := ⟨0, 0⟩, scenario_index := ⟨1⟩, «end» := none }] }
    2 ⟨1, 86400⟩ [1, 0] rfl rfl (by decide)

end PywrEvents
